import Mathlib

/-!
Verification development for the PartylineRecorder repository.

The definitions below are a shallow embedding of the core of the
repository: the conference-participant tracker and the recording
callback handler of `server/routes.ts` (the version with stem/mixed
classification and phone-number attribution), and the in-memory
persistence layer `MemStorage` of `server/storage.ts`.

JavaScript `Map` objects are modelled as association lists in insertion
order (`set` updates an existing key in place, otherwise appends);
JavaScript `Set` objects are modelled as duplicate-free lists in
insertion order.  A request-body field that is `undefined` or the empty
string (both falsy in the JS code) is modelled as `none`.
-/

/-- JS `Map.get`: value of the first (only) entry with the given key. -/
def alGet {α : Type} (m : List (String × α)) (k : String) : Option α :=
  (m.find? (fun p => p.1 == k)).map (·.2)

/-- JS `Map.set`: update the entry in place when the key is present, else append. -/
def alSet {α : Type} (m : List (String × α)) (k : String) (v : α) : List (String × α) :=
  if (m.find? (fun p => p.1 == k)).isSome then
    m.map (fun p => if p.1 == k then (k, v) else p)
  else
    m ++ [(k, v)]

/-- JS `Map.delete`: remove the entry with the given key. -/
def alDel {α : Type} (m : List (String × α)) (k : String) : List (String × α) :=
  m.filter (fun p => p.1 ≠ k)

/-- JS `Set.add`: append the element when it is not already present. -/
def setAdd (s : List String) (x : String) : List String :=
  if x ∈ s then s else s ++ [x]

/-- JS `Set.delete`: remove the element. -/
def setDel (s : List String) (x : String) : List String :=
  s.filter (fun y => y ≠ x)

/-- Is `pat` a contiguous sublist of `l`?  (Helper for JS `String.includes`.) -/
def containsSeq (pat : List Char) : List Char → Bool
  | [] => pat.isEmpty
  | a :: as => pat.isPrefixOf (a :: as) || containsSeq pat as

/-- JS `String.prototype.includes`. -/
def strIncludes (s pat : String) : Bool :=
  containsSeq pat.data s.data

/-- The per-conference tracking record of `routes.ts`
(`conferenceParticipants` map values): active call set, historical peak,
accumulated caller numbers, and the CallSid → phone-number map. -/
structure ConfData where
  active : List String
  peak : Nat
  phoneNumbers : List String
  callSidToPhone : List (String × String)
deriving DecidableEq, Repr

/-- The value a session is lazily created with:
`{ active: new Set(), peak: 0, phoneNumbers: new Set(), callSidToPhone: new Map() }`. -/
def ConfData.init : ConfData :=
  { active := [], peak := 0, phoneNumbers := [], callSidToPhone := [] }

/-- A `/conf-status` participant event restricted to one conference:
either a join carrying an optional `CallSid` and optional `From`, or a
leave carrying an optional `CallSid`. -/
inductive ConfEvent where
  | join (callSid : Option String) (fromNumber : Option String)
  | leave (callSid : Option String)
deriving DecidableEq, Repr

/-- The mutation the `/conf-status` handler applies to one conference's
tracking record (`routes.ts` participant-join / participant-leave
branches).  A missing `CallSid` leaves the record untouched. -/
def confStep (d : ConfData) : ConfEvent → ConfData
  | .join none _ => d
  | .join (some c) ph =>
    let active := setAdd d.active c
    let peak := max d.peak active.length
    match ph with
    | some f =>
      { active := active, peak := peak,
        phoneNumbers := setAdd d.phoneNumbers f,
        callSidToPhone := alSet d.callSidToPhone c f }
    | none => { d with active := active, peak := peak }
  | .leave none => d
  | .leave (some c) => { d with active := setDel d.active c }

/-- Run a sequence of participant events against a fresh conference record. -/
def confRun (es : List ConfEvent) : ConfData :=
  es.foldl confStep ConfData.init

/-- The sizes of `activeCalls` observed after each event of the sequence. -/
def observedSizes (d : ConfData) : List ConfEvent → List Nat
  | [] => []
  | e :: es =>
    let d' := confStep d e
    d'.active.length :: observedSizes d' es

/-- The process-wide `conferenceParticipants` map of `routes.ts`. -/
abbrev Tracker := List (String × ConfData)

/-- A parsed `/conf-status` request body (the fields the handler reads).
`none` models a missing or empty (falsy) field. -/
structure StatusEvent where
  event : Option String
  conferenceSid : Option String
  callSid : Option String
  fromNumber : Option String
deriving DecidableEq, Repr

/-- The `/conf-status` handler's effect on the process-wide
`conferenceParticipants` map (`routes.ts`): when `ConferenceSid` is
truthy the session is lazily created, then mutated by the
participant-join / participant-leave branches. -/
def trackerStep (t : Tracker) (e : StatusEvent) : Tracker :=
  match e.conferenceSid with
  | none => t
  | some csid =>
    let t' := if (alGet t csid).isSome then t else alSet t csid ConfData.init
    let d := (alGet t' csid).getD ConfData.init
    if e.event == some "participant-join" then
      match e.callSid with
      | some c => alSet t' csid (confStep d (.join (some c) e.fromNumber))
      | none => t'
    else if e.event == some "participant-leave" then
      match e.callSid with
      | some c => alSet t' csid (confStep d (.leave (some c)))
      | none => t'
    else t'

/-- A persisted recording row as built by `MemStorage.createRecording`
(`server/storage.ts`).  `createdAt` is a timestamp modelled as a natural
number (`Date.getTime`). -/
structure Recording where
  id : String
  recordingSid : String
  conferenceSid : Option String
  objectPath : String
  duration : Option Int
  participants : Option Int
  participantPhoneNumbers : Option (List String)
  archived : Nat
  transcription : Option String
  transcriptionStatus : String
  createdAt : Nat
deriving DecidableEq, Repr

/-- The argument object the `/recording-callback` handler passes to
`storage.createRecording` (`routes.ts`).  `MemStorage.createRecording`
consumes only a subset of these fields. -/
structure InsertRecording where
  recordingSid : String
  conferenceSid : Option String
  objectPath : String
  duration : Int
  participants : Int
  participantPhoneNumbers : List String
  recordingType : String
  callSid : Option String
  recordingSource : Option String
  recordingTrack : Option String
  callerPhoneNumber : Option String
deriving DecidableEq, Repr

/-- `MemStorage.getRecordingByRecordingSid`: first stored recording with
the given `recordingSid`. -/
def getRecordingByRecordingSid (store : List Recording) (sid : String) : Option Recording :=
  store.find? (fun r => r.recordingSid == sid)

/-- `MemStorage.getRecording`: lookup by primary id. -/
def getRecording (store : List Recording) (id : String) : Option Recording :=
  store.find? (fun r => r.id == id)

/-- JS `this.recordings.set(recording.id, recording)`: in-place update
when the id is present, else append. -/
def setById (store : List Recording) (r : Recording) : List Recording :=
  if store.any (fun x => x.id == r.id) then
    store.map (fun x => if x.id == r.id then r else x)
  else
    store ++ [r]

/-- `MemStorage.createRecording`: build the `Recording` row from the
insert object (dropping the fields the row does not carry), with
`archived = 0`, `transcription = null`, `transcriptionStatus = "pending"`,
and store it under a fresh id. -/
def createRecording (store : List Recording) (ins : InsertRecording)
    (freshId : String) (now : Nat) : List Recording :=
  let r : Recording :=
    { id := freshId,
      recordingSid := ins.recordingSid,
      conferenceSid := ins.conferenceSid,
      objectPath := ins.objectPath,
      duration := some ins.duration,
      participants := some ins.participants,
      participantPhoneNumbers := some ins.participantPhoneNumbers,
      archived := 0,
      transcription := none,
      transcriptionStatus := "pending",
      createdAt := now }
  setById store r

/-- `MemStorage.updateTranscriptionStatus`: find the recording by
`recordingSid`; when found set `transcriptionStatus`, and set
`transcription` only when a text argument was passed (`none` models the
JS `undefined` argument). -/
def updateTranscriptionStatus (store : List Recording) (sid status : String)
    (txt : Option String) : List Recording :=
  match getRecordingByRecordingSid store sid with
  | none => store
  | some r =>
    setById store
      { r with
        transcriptionStatus := status,
        transcription := match txt with
          | some t => some t
          | none => r.transcription }

/-- `MemStorage.getAllRecordings`: keep non-archived rows unless
`includeArchived`, then sort by `createdAt` descending. -/
def getAllRecordings (store : List Recording) (includeArchived : Bool) : List Recording :=
  (store.filter (fun r => includeArchived || r.archived == 0)).mergeSort
    (fun a b => b.createdAt ≤ a.createdAt)

/-- A parsed `/recording-callback` request body (the fields the handler
reads).  `none` models a missing or empty (falsy) field. -/
structure Notification where
  recordingSid : Option String
  recordingUrl : Option String
  conferenceSid : Option String
  recordingDuration : Option String
  callSid : Option String
  recordingSource : Option String
  recordingTrack : Option String
deriving DecidableEq, Repr

/-- The observed outcome of the Twilio media download (`axios.get` with
`validateStatus: () => true`): HTTP status and declared content type. -/
structure FetchResult where
  status : Nat
  contentType : String
deriving DecidableEq, Repr

/-- What the `/recording-callback` handler leaves behind: the HTTP status
sent to the provider, the persisted recordings, and the tracker map. -/
structure IngestResult where
  httpStatus : Nat
  recs : List Recording
  tracker : Tracker
deriving DecidableEq, Repr

/-- `routes.ts`: `const isStemRecording = RecordingSource === "DialVerb"
|| RecordingTrack === "inbound";`. -/
def isStemRecording (n : Notification) : Bool :=
  n.recordingSource == some "DialVerb" || n.recordingTrack == some "inbound"

/-- Modelled from the spec: the object-store write of §4.2 step 5
(`objectStorageService.uploadRecording`, whose source file is not in the
repository snapshot) stores the bytes under a key derived
deterministically from the provider recording id and returns that key as
`mediaLocation`. -/
def uploadRecording (recordingSid : String) : String :=
  "/recordings/" ++ recordingSid

/-- `parseInt(RecordingDuration || "0", 10)`, restricted to the
well-formed numeric strings the provider sends (no theorem below
depends on the value). -/
def parseDuration (o : Option String) : Int :=
  ((o.getD "0").toInt?).getD 0

/-- The `/recording-callback` handler of `routes.ts` as a state
transformer: validate, deduplicate, check the download, upload the
media, classify stem vs mixed, resolve participant metadata from the
tracker, persist, and (for mixed) discard the conference session.  A
thrown error is caught and reported as HTTP 500 with no state change. -/
def ingest (store : List Recording) (tracker : Tracker) (n : Notification)
    (fetch : FetchResult) (freshId : String) (now : Nat) : IngestResult :=
  match n.recordingSid, n.recordingUrl with
  | some sid, some _ =>
    match getRecordingByRecordingSid store sid with
    | some _ => ⟨200, store, tracker⟩
    | none =>
      if fetch.status < 200 ∨ 300 ≤ fetch.status then ⟨500, store, tracker⟩
      else if !(strIncludes fetch.contentType "audio") && !(strIncludes fetch.contentType "mpeg") then
        ⟨500, store, tracker⟩
      else
        let objectPath := uploadRecording sid
        let confData := alGet tracker (n.conferenceSid.getD "")
        if isStemRecording n then
          let phoneNumber :=
            confData.bind (fun d => alGet d.callSidToPhone (n.callSid.getD ""))
          let ins : InsertRecording :=
            { recordingSid := sid,
              conferenceSid := n.conferenceSid,
              objectPath := objectPath,
              duration := parseDuration n.recordingDuration,
              participants := 1,
              participantPhoneNumbers := match phoneNumber with
                | some p => [p]
                | none => [],
              recordingType := "stem",
              callSid := n.callSid,
              recordingSource := n.recordingSource,
              recordingTrack := n.recordingTrack,
              callerPhoneNumber := phoneNumber }
          ⟨200, createRecording store ins freshId now, tracker⟩
        else
          let participantCount := (confData.map (fun d => (d.peak : Int))).getD 0
          let phoneNumbers := (confData.map (fun d => d.phoneNumbers)).getD []
          let ins : InsertRecording :=
            { recordingSid := sid,
              conferenceSid := n.conferenceSid,
              objectPath := objectPath,
              duration := parseDuration n.recordingDuration,
              participants := participantCount,
              participantPhoneNumbers := phoneNumbers,
              recordingType := "mixed",
              callSid := n.callSid,
              recordingSource := n.recordingSource,
              recordingTrack := n.recordingTrack,
              callerPhoneNumber := none }
          let tracker' := match n.conferenceSid with
            | some c => alDel tracker c
            | none => tracker
          ⟨200, createRecording store ins freshId now, tracker'⟩
  | _, _ => ⟨400, store, tracker⟩

/-- `transcribeRecordingAsync` (`routes.ts`): set the status to
`processing`, run the transcription service, and on success set
`completed` with the text, on failure set `failed` (no text).  The
service outcome is the `result` parameter (`none` models a thrown
error). -/
def transcribeRecordingAsync (store : List Recording) (sid : String)
    (result : Option String) : List Recording :=
  let s1 := updateTranscriptionStatus store sid "processing" none
  match result with
  | some text => updateTranscriptionStatus s1 sid "completed" (some text)
  | none => updateTranscriptionStatus s1 sid "failed" none

/-- Stated from the spec's words for claim C5: a per-leg capture is "an
inbound or outbound media channel, or one sourced from the dial verb". -/
def specPerLegCapture (n : Notification) : Bool :=
  n.recordingTrack == some "inbound" || n.recordingTrack == some "outbound"
    || n.recordingSource == some "DialVerb"

/-- Stated from the spec's words for claim C6: the declared content type
"is audio", read as an audio MIME type. -/
def specIsAudioContentType (ct : String) : Bool :=
  ("audio/".data).isPrefixOf ct.data

/-- Number of persisted recordings carrying a given provider recording id. -/
def countSid (store : List Recording) (sid : String) : Nat :=
  (store.filter (fun r => r.recordingSid == sid)).length

/-- The fetch outcome passes both checks of the handler: 2xx status and
a content type containing `audio` or `mpeg`. -/
def fetchOk (f : FetchResult) : Prop :=
  200 ≤ f.status ∧ f.status < 300 ∧
    (strIncludes f.contentType "audio" || strIncludes f.contentType "mpeg") = true

/-- Example notification: a plain conference-mix completion with no
conference reference. -/
def exN1 : Notification :=
  { recordingSid := some "RE1", recordingUrl := some "http://media",
    conferenceSid := none, recordingDuration := none, callSid := none,
    recordingSource := none, recordingTrack := none }

/-- Example fetch outcome: HTTP 200 with an audio body. -/
def exAudioFetch : FetchResult := { status := 200, contentType := "audio/mpeg" }

/-- Example fetch outcome: HTTP 200 with an HTML error page. -/
def exHtmlFetch : FetchResult := { status := 200, contentType := "text/html" }

/-- Example fetch outcome: HTTP 200 with a non-audio MPEG content type. -/
def exVideoFetch : FetchResult := { status := 200, contentType := "video/mpeg" }

/-- Example notification: an outbound-track recording not sourced from
the dial verb. -/
def exOutboundN : Notification :=
  { recordingSid := some "RE5", recordingUrl := some "u",
    conferenceSid := none, recordingDuration := none, callSid := none,
    recordingSource := some "Conference", recordingTrack := some "outbound" }

/-- Example tracked conference session. -/
def exSession : ConfData :=
  { active := ["callA"], peak := 2, phoneNumbers := ["+15551", "+15552"],
    callSidToPhone := [("callA", "+15551"), ("callB", "+15552")] }

/-- Example tracker holding one session. -/
def exTracker : Tracker := [("CF1", exSession)]

/-- Example mixed-recording notification for the tracked conference. -/
def exMixedN : Notification :=
  { recordingSid := some "RM1", recordingUrl := some "u",
    conferenceSid := some "CF1", recordingDuration := none, callSid := none,
    recordingSource := none, recordingTrack := none }

/-- Example stem-recording notification for the tracked conference. -/
def exStemN : Notification :=
  { recordingSid := some "RS1", recordingUrl := some "u",
    conferenceSid := some "CF1", recordingDuration := none,
    callSid := some "callA", recordingSource := some "DialVerb",
    recordingTrack := none }

lemma alGet_append_left {α : Type} {m : List (String × α)} {k : String} {v : α}
    (h : alGet m k = some v) (l : List (String × α)) : alGet (m ++ l) k = some v := by
  unfold alGet at h ⊢
  rw [List.find?_append]
  rcases hf : m.find? (fun p => p.1 == k) with _ | p
  · rw [hf] at h; simp at h
  · rw [hf] at h; simp_all

lemma alSet_of_get_none {α : Type} {m : List (String × α)} {k : String} (v : α)
    (h : alGet m k = none) : alSet m k v = m ++ [(k, v)] := by
  unfold alGet at h
  unfold alSet
  rw [Option.map_eq_none'] at h
  rw [h]
  rfl

lemma alGet_alDel_self {α : Type} (m : List (String × α)) (k : String) :
    alGet (alDel m k) k = none := by
  unfold alGet alDel
  rw [Option.map_eq_none', List.find?_eq_none]
  intro p hp
  rcases List.mem_filter.mp hp with ⟨_, hpk⟩
  simpa using of_decide_eq_true hpk

lemma confStep_peak_eq (d : ConfData) (e : ConfEvent)
    (h : d.active.length ≤ d.peak) :
    (confStep d e).peak = max d.peak (confStep d e).active.length := by
  cases e with
  | join c ph =>
    cases c with
    | none => simp [confStep]; omega
    | some c => cases ph <;> simp [confStep]
  | leave c =>
    cases c with
    | none => simp [confStep]; omega
    | some c =>
      have h2 : (setDel d.active c).length ≤ d.active.length :=
        List.length_filter_le _ _
      simp [confStep]; omega

lemma confStep_inv (d : ConfData) (e : ConfEvent)
    (h : d.active.length ≤ d.peak) :
    (confStep d e).active.length ≤ (confStep d e).peak := by
  rw [confStep_peak_eq d e h]
  exact Nat.le_max_right _ _

lemma confStep_peak_mono (d : ConfData) (e : ConfEvent) :
    d.peak ≤ (confStep d e).peak := by
  cases e with
  | join c ph =>
    cases c with
    | none => simp [confStep]
    | some c => cases ph <;> simp [confStep]
  | leave c => cases c <;> simp [confStep]

lemma foldl_confStep_peak :
    ∀ (es : List ConfEvent) (d : ConfData), d.active.length ≤ d.peak →
      (es.foldl confStep d).peak = (observedSizes d es).foldl max d.peak := by
  intro es
  induction es with
  | nil => intro d _; simp [observedSizes]
  | cons e es ih =>
    intro d h
    have hinv := confStep_inv d e h
    have hpk := confStep_peak_eq d e h
    simp only [List.foldl_cons, observedSizes]
    rw [ih (confStep d e) hinv, hpk]

lemma foldl_confStep_inv :
    ∀ (es : List ConfEvent) (d : ConfData), d.active.length ≤ d.peak →
      (es.foldl confStep d).active.length ≤ (es.foldl confStep d).peak := by
  intro es
  induction es with
  | nil => intro d h; simpa using h
  | cons e es ih =>
    intro d h
    exact ih (confStep d e) (confStep_inv d e h)

/-- C2: for every sequence of join/leave events on one conference
instance, `peakConcurrency` equals the maximum `|activeCalls|` observed
after any prefix of the sequence (starting from 0), `peakConcurrency`
dominates the current `|activeCalls|`, and appending one more event
never decreases `peakConcurrency`. -/
theorem peak_equals_max_observed (es : List ConfEvent) :
    (confRun es).peak = (observedSizes ConfData.init es).foldl max 0
    ∧ (confRun es).active.length ≤ (confRun es).peak
    ∧ ∀ e : ConfEvent, (confRun es).peak ≤ (confRun (es ++ [e])).peak := by
  have h0 : (ConfData.init).active.length ≤ (ConfData.init).peak := by
    simp [ConfData.init]
  refine ⟨?_, ?_, ?_⟩
  · have := foldl_confStep_peak es ConfData.init h0
    simpa [confRun, ConfData.init] using this
  · exact foldl_confStep_inv es ConfData.init h0
  · intro e
    unfold confRun
    rw [List.foldl_append]
    exact confStep_peak_mono _ e

/-- C7: `recordLeave` removes the call from `activeCalls` and changes
nothing else — `peakConcurrency`, the accumulated phone-number set and
the `callToPhoneNumber` map are untouched; and in the concrete scenario
join(callA,+15551), join(callB,+15552), leave(callA) the snapshot keeps
peak 2, both numbers, and callA's mapping. -/
theorem recordLeave_frame :
    (∀ (d : ConfData) (c : String),
      confStep d (.leave (some c)) = { d with active := setDel d.active c })
    ∧ (confRun [.join (some "callA") (some "+15551"),
                .join (some "callB") (some "+15552"),
                .leave (some "callA")] =
        { active := ["callB"], peak := 2,
          phoneNumbers := ["+15551", "+15552"],
          callSidToPhone := [("callA", "+15551"), ("callB", "+15552")] }) := by
  constructor
  · intro d c; rfl
  · decide

/-- C9 counterexample: a participant-join event with a missing `CallSid`
on an unseen conference is not a strict no-op — the handler lazily
creates an empty session first, so the set of tracked conferences
grows. -/
theorem join_missing_callSid_not_noop :
    trackerStep []
      { event := some "participant-join", conferenceSid := some "CF1",
        callSid := none, fromNumber := none } ≠ [] := by
  decide

/-- C9 (amended): a participant-join event with a missing `CallSid`
produces no error and preserves every existing session's data unchanged;
the map itself is either exactly unchanged, or — when the event names an
unseen conference — extended by one empty default session for that
conference. -/
theorem join_missing_callSid_amended (t : Tracker) (e : StatusEvent)
    (hev : e.event = some "participant-join") (hcs : e.callSid = none) :
    (∀ (k : String) (v : ConfData), alGet t k = some v → alGet (trackerStep t e) k = some v)
    ∧ (trackerStep t e = t ∨
        ∃ c, e.conferenceSid = some c ∧ alGet t c = none ∧
          trackerStep t e = t ++ [(c, ConfData.init)]) := by
  rcases hcsid : e.conferenceSid with _ | c
  · constructor
    · intro k v hget
      simpa [trackerStep, hcsid] using hget
    · left; simp [trackerStep, hcsid]
  · by_cases hex : (alGet t c).isSome
    · have hstep : trackerStep t e = t := by
        simp [trackerStep, hcsid, hex, hev, hcs]
      constructor
      · intro k v hget; rw [hstep]; exact hget
      · left; exact hstep
    · have hnone : alGet t c = none := Option.not_isSome_iff_eq_none.mp hex
      have hstep : trackerStep t e = t ++ [(c, ConfData.init)] := by
        simp [trackerStep, hcsid, hex, hev, hcs, alSet_of_get_none _ hnone]
      constructor
      · intro k v hget
        rw [hstep]
        exact alGet_append_left hget _
      · right; exact ⟨c, rfl, hnone, hstep⟩

/-- C9 amended-theorem witness. -/
theorem join_missing_callSid_amended_witness :
    (∀ (k : String) (v : ConfData),
        alGet [("CF0", ConfData.init)] k = some v →
        alGet (trackerStep [("CF0", ConfData.init)]
          { event := some "participant-join", conferenceSid := some "CF1",
            callSid := none, fromNumber := none }) k = some v)
    ∧ (trackerStep [("CF0", ConfData.init)]
          { event := some "participant-join", conferenceSid := some "CF1",
            callSid := none, fromNumber := none } = [("CF0", ConfData.init)] ∨
        ∃ c, (some "CF1" : Option String) = some c
          ∧ alGet [("CF0", ConfData.init)] c = none
          ∧ trackerStep [("CF0", ConfData.init)]
              { event := some "participant-join", conferenceSid := some "CF1",
                callSid := none, fromNumber := none }
              = [("CF0", ConfData.init)] ++ [(c, ConfData.init)]) :=
  join_missing_callSid_amended [("CF0", ConfData.init)]
    { event := some "participant-join", conferenceSid := some "CF1",
      callSid := none, fromNumber := none } rfl rfl

lemma find_sid_map_update {sid : String} {r r' : Recording} :
    ∀ store : List Recording,
      getRecordingByRecordingSid store sid = some r →
      r'.id = r.id → r'.recordingSid = sid →
      getRecordingByRecordingSid
        (store.map (fun x => if x.id == r'.id then r' else x)) sid = some r' := by
  intro store
  induction store with
  | nil => intro h; simp [getRecordingByRecordingSid] at h
  | cons x xs ih =>
    intro h hid hsid
    unfold getRecordingByRecordingSid at h ⊢
    rw [List.map_cons]
    by_cases hxid : x.id = r'.id
    · have hhead : (if x.id == r'.id then r' else x) = r' := by simp [hxid]
      rw [hhead]
      rw [List.find?_cons_of_pos _ (by simp [hsid])]
    · have hhead : (if x.id == r'.id then r' else x) = x := by simp [hxid]
      rw [hhead]
      by_cases hxsid : x.recordingSid = sid
      · exfalso
        have hx : List.find? (fun rec => rec.recordingSid == sid) (x :: xs) = some x :=
          List.find?_cons_of_pos _ (by simp [hxsid])
        rw [hx] at h
        have hxr : x = r := by injection h
        exact hxid (by rw [hxr, hid])
      · rw [List.find?_cons_of_neg _ (by simp [hxsid])]
        rw [List.find?_cons_of_neg _ (by simp [hxsid])] at h
        exact ih h hid hsid

lemma getBySid_setById {store : List Recording} {sid : String} {r r' : Recording}
    (h : getRecordingByRecordingSid store sid = some r)
    (hid : r'.id = r.id) (hsid : r'.recordingSid = sid) :
    getRecordingByRecordingSid (setById store r') sid = some r' := by
  have hmem : r ∈ store := List.mem_of_find?_eq_some h
  have hany : store.any (fun x => x.id == r'.id) = true := by
    rw [List.any_eq_true]
    exact ⟨r, hmem, by simp [hid]⟩
  unfold setById
  rw [hany]
  simp only [if_true]
  exact find_sid_map_update store h hid hsid

lemma recordingSid_of_found {store : List Recording} {sid : String} {r : Recording}
    (h : getRecordingByRecordingSid store sid = some r) : r.recordingSid = sid := by
  have := List.find?_some h
  simpa using this

lemma getBySid_updateTranscriptionStatus {store : List Recording} {sid : String}
    {r : Recording} (h : getRecordingByRecordingSid store sid = some r)
    (status : String) (txt : Option String) :
    getRecordingByRecordingSid (updateTranscriptionStatus store sid status txt) sid =
      some { r with
             transcriptionStatus := status,
             transcription := match txt with
               | some t => some t
               | none => r.transcription } := by
  have hsid : r.recordingSid = sid := recordingSid_of_found h
  unfold updateTranscriptionStatus
  rw [h]
  exact getBySid_setById h rfl hsid

/-- C8: in the transcription state machine, a failed enrichment sets
`transcriptionStatus` to `failed` and leaves every other field of the
committed recording unchanged (in particular no transcription text is
attached), while a successful enrichment is the only transition that
sets the text, together with status `completed`. -/
theorem transcription_failure_frame (store : List Recording) (sid : String)
    (r : Recording) (h : getRecordingByRecordingSid store sid = some r) :
    getRecordingByRecordingSid (transcribeRecordingAsync store sid none) sid =
      some { r with transcriptionStatus := "failed" }
    ∧ ∀ text : String,
        getRecordingByRecordingSid (transcribeRecordingAsync store sid (some text)) sid =
          some { r with transcriptionStatus := "completed", transcription := some text } := by
  have h1 := getBySid_updateTranscriptionStatus h "processing" none
  constructor
  · exact getBySid_updateTranscriptionStatus h1 "failed" none
  · intro text
    exact getBySid_updateTranscriptionStatus h1 "completed" (some text)

/-- C8 witness. -/
theorem transcription_failure_frame_witness :
    getRecordingByRecordingSid
      (transcribeRecordingAsync
        [{ id := "i1", recordingSid := "RE8", conferenceSid := none,
           objectPath := "/recordings/RE8", duration := some 3,
           participants := some 2, participantPhoneNumbers := some [],
           archived := 0, transcription := none,
           transcriptionStatus := "pending", createdAt := 5 }] "RE8" none) "RE8" =
      some { id := "i1", recordingSid := "RE8", conferenceSid := none,
             objectPath := "/recordings/RE8", duration := some 3,
             participants := some 2, participantPhoneNumbers := some [],
             archived := 0, transcription := none,
             transcriptionStatus := "failed", createdAt := 5 } :=
  (transcription_failure_frame
    [{ id := "i1", recordingSid := "RE8", conferenceSid := none,
       objectPath := "/recordings/RE8", duration := some 3,
       participants := some 2, participantPhoneNumbers := some [],
       archived := 0, transcription := none,
       transcriptionStatus := "pending", createdAt := 5 }] "RE8"
    { id := "i1", recordingSid := "RE8", conferenceSid := none,
      objectPath := "/recordings/RE8", duration := some 3,
      participants := some 2, participantPhoneNumbers := some [],
      archived := 0, transcription := none,
      transcriptionStatus := "pending", createdAt := 5 } (by decide)).1

lemma alDel_of_get_none {α : Type} {m : List (String × α)} {k : String}
    (h : alGet m k = none) : alDel m k = m := by
  unfold alGet at h
  rw [Option.map_eq_none', List.find?_eq_none] at h
  unfold alDel
  rw [List.filter_eq_self]
  intro p hp
  have := h p hp
  simp at this ⊢
  exact this

lemma setById_fresh (store : List Recording) (r : Recording)
    (h : ∀ x ∈ store, x.id ≠ r.id) : setById store r = store ++ [r] := by
  unfold setById
  have hany : store.any (fun x => x.id == r.id) = false := by
    rw [Bool.eq_false_iff]
    intro hc
    rcases List.any_eq_true.mp hc with ⟨x, hx, hbeq⟩
    exact h x hx (by simpa using hbeq)
  rw [hany]
  simp

lemma getBySid_append_none {store : List Recording} {sid : String}
    (h : getRecordingByRecordingSid store sid = none) (e : Recording) :
    getRecordingByRecordingSid (store ++ [e]) sid =
      if e.recordingSid == sid then some e else none := by
  unfold getRecordingByRecordingSid at h ⊢
  rw [List.find?_append, h]
  cases hb : (e.recordingSid == sid) with
  | true =>
    rw [if_pos rfl,
      List.find?_cons_of_pos (p := fun r : Recording => r.recordingSid == sid) _ hb]
    rfl
  | false =>
    rw [if_neg (by simp),
      List.find?_cons_of_neg (p := fun r : Recording => r.recordingSid == sid) _
        (by simp [hb])]
    rfl

lemma filter_sid_nil {store : List Recording} {sid : String}
    (h : getRecordingByRecordingSid store sid = none) :
    store.filter (fun r => r.recordingSid == sid) = [] := by
  rw [List.filter_eq_nil_iff]
  intro r hr
  have := List.find?_eq_none.mp h r hr
  simpa using this

lemma content_cond_false {f : FetchResult}
    (hct : (strIncludes f.contentType "audio" || strIncludes f.contentType "mpeg") = true) :
    (!strIncludes f.contentType "audio" && !strIncludes f.contentType "mpeg") = false := by
  revert hct
  cases strIncludes f.contentType "audio" <;> cases strIncludes f.contentType "mpeg" <;> simp

lemma ingest_mixed_shape (store : List Recording) (tracker : Tracker) (n : Notification)
    (f : FetchResult) (freshId : String) (now : Nat) (sid url : String)
    (h1 : n.recordingSid = some sid) (h2 : n.recordingUrl = some url)
    (h3 : getRecordingByRecordingSid store sid = none)
    (hfs : 200 ≤ f.status) (hfs2 : f.status < 300)
    (hct : (strIncludes f.contentType "audio" || strIncludes f.contentType "mpeg") = true)
    (hK : isStemRecording n = false) :
    ingest store tracker n f freshId now =
      ⟨200,
       setById store
         { id := freshId, recordingSid := sid, conferenceSid := n.conferenceSid,
           objectPath := uploadRecording sid,
           duration := some (parseDuration n.recordingDuration),
           participants := some
             (((alGet tracker (n.conferenceSid.getD "")).map (fun d => (d.peak : Int))).getD 0),
           participantPhoneNumbers := some
             (((alGet tracker (n.conferenceSid.getD "")).map (fun d => d.phoneNumbers)).getD []),
           archived := 0, transcription := none, transcriptionStatus := "pending",
           createdAt := now },
       match n.conferenceSid with
       | some c => alDel tracker c
       | none => tracker⟩ := by
  unfold ingest
  rw [h1, h2]
  dsimp only
  rw [h3]
  rw [if_neg (by omega)]
  simp only [content_cond_false hct, Bool.false_eq_true, if_false]
  rw [hK]
  simp only [Bool.false_eq_true, if_false]
  unfold createRecording
  rfl

lemma ingest_stem_shape (store : List Recording) (tracker : Tracker) (n : Notification)
    (f : FetchResult) (freshId : String) (now : Nat) (sid url : String)
    (h1 : n.recordingSid = some sid) (h2 : n.recordingUrl = some url)
    (h3 : getRecordingByRecordingSid store sid = none)
    (hfs : 200 ≤ f.status) (hfs2 : f.status < 300)
    (hct : (strIncludes f.contentType "audio" || strIncludes f.contentType "mpeg") = true)
    (hK : isStemRecording n = true) :
    ingest store tracker n f freshId now =
      ⟨200,
       setById store
         { id := freshId, recordingSid := sid, conferenceSid := n.conferenceSid,
           objectPath := uploadRecording sid,
           duration := some (parseDuration n.recordingDuration),
           participants := some 1,
           participantPhoneNumbers := some
             (match (alGet tracker (n.conferenceSid.getD "")).bind
                 (fun d => alGet d.callSidToPhone (n.callSid.getD "")) with
              | some p => [p]
              | none => []),
           archived := 0, transcription := none, transcriptionStatus := "pending",
           createdAt := now },
       tracker⟩ := by
  unfold ingest
  rw [h1, h2]
  dsimp only
  rw [h3]
  rw [if_neg (by omega)]
  simp only [content_cond_false hct, Bool.false_eq_true, if_false]
  rw [hK]
  rw [if_pos rfl]
  unfold createRecording
  rfl

lemma ingest_nonaudio_shape (store : List Recording) (tracker : Tracker) (n : Notification)
    (f : FetchResult) (freshId : String) (now : Nat) (sid url : String)
    (h1 : n.recordingSid = some sid) (h2 : n.recordingUrl = some url)
    (h3 : getRecordingByRecordingSid store sid = none)
    (hfs : 200 ≤ f.status) (hfs2 : f.status < 300)
    (hA : strIncludes f.contentType "audio" = false)
    (hM : strIncludes f.contentType "mpeg" = false) :
    ingest store tracker n f freshId now = ⟨500, store, tracker⟩ := by
  unfold ingest
  rw [h1, h2]
  dsimp only
  rw [h3]
  rw [if_neg (by omega)]
  rw [hA, hM]
  simp

/-- C1: under at-least-once delivery, ingesting the same
`providerRecordingId` twice (the second call after the first has
persisted) leaves exactly one persisted entity; the first call reports
success, and the second call reports success while returning the store
and tracker unchanged — whatever its own fetch outcome would have been,
since the deduplication lookup answers first. -/
theorem ingest_twice_one_entity (store : List Recording) (tracker : Tracker)
    (n : Notification) (f : FetchResult) (freshId : String) (now : Nat)
    (sid url : String)
    (h1 : n.recordingSid = some sid) (h2 : n.recordingUrl = some url)
    (h3 : getRecordingByRecordingSid store sid = none)
    (hfs : 200 ≤ f.status) (hfs2 : f.status < 300)
    (hct : (strIncludes f.contentType "audio" || strIncludes f.contentType "mpeg") = true)
    (hfresh : ∀ x ∈ store, x.id ≠ freshId) :
    (ingest store tracker n f freshId now).httpStatus = 200
    ∧ countSid (ingest store tracker n f freshId now).recs sid = 1
    ∧ ∀ (f2 : FetchResult) (id2 : String) (t2 : Nat),
        ingest (ingest store tracker n f freshId now).recs
          (ingest store tracker n f freshId now).tracker n f2 id2 t2 =
        ⟨200, (ingest store tracker n f freshId now).recs,
          (ingest store tracker n f freshId now).tracker⟩ := by
  have main : ∃ e : Recording, e.recordingSid = sid ∧
      (ingest store tracker n f freshId now).httpStatus = 200
      ∧ (ingest store tracker n f freshId now).recs = store ++ [e] := by
    by_cases hK : isStemRecording n = true
    · rw [ingest_stem_shape store tracker n f freshId now sid url h1 h2 h3 hfs hfs2 hct hK]
      rw [setById_fresh _ _ (fun x hx => hfresh x hx)]
      exact ⟨_, rfl, rfl, rfl⟩
    · rw [ingest_mixed_shape store tracker n f freshId now sid url h1 h2 h3 hfs hfs2 hct
        (Bool.eq_false_iff.mpr hK)]
      rw [setById_fresh _ _ (fun x hx => hfresh x hx)]
      exact ⟨_, rfl, rfl, rfl⟩
  obtain ⟨e, hesid, hstat, hrecs⟩ := main
  refine ⟨hstat, ?_, ?_⟩
  · rw [hrecs]
    unfold countSid
    rw [List.filter_append, filter_sid_nil h3]
    simp [hesid]
  · intro f2 id2 t2
    have hget : getRecordingByRecordingSid (store ++ [e]) sid = some e := by
      rw [getBySid_append_none h3 e, if_pos (by simp [hesid])]
    rw [hrecs]
    generalize (ingest store tracker n f freshId now).tracker = trk
    unfold ingest
    rw [h1, h2]
    dsimp only
    rw [hget]

/-- C1 witness. -/
theorem ingest_twice_one_entity_witness :
    (ingest [] [] exN1 exAudioFetch "id0" 0).httpStatus = 200
    ∧ countSid (ingest [] [] exN1 exAudioFetch "id0" 0).recs "RE1" = 1
    ∧ ingest (ingest [] [] exN1 exAudioFetch "id0" 0).recs
        (ingest [] [] exN1 exAudioFetch "id0" 0).tracker exN1 exHtmlFetch "id1" 9 =
      ⟨200, (ingest [] [] exN1 exAudioFetch "id0" 0).recs,
        (ingest [] [] exN1 exAudioFetch "id0" 0).tracker⟩ := by
  have h := ingest_twice_one_entity [] [] exN1 exAudioFetch "id0" 0 "RE1" "http://media"
    rfl rfl rfl (by decide) (by decide) (by decide) (by intro x hx; cases hx)
  exact ⟨h.1, h.2.1, h.2.2 exHtmlFetch "id1" 9⟩

/-- C4: an ingest never fails for want of tracker metadata — a mixed
notification whose conference lookup finds no tracked session persists
`participants = 0` and `participantPhoneNumbers = []`, and a stem
notification whose originating call is not in any tracked
`callSidToPhone` map persists `participants = 1` and
`participantPhoneNumbers = []`; both still succeed with HTTP 200. -/
theorem ingest_tracker_defaults (store : List Recording) (tracker : Tracker)
    (n : Notification) (f : FetchResult) (freshId : String) (now : Nat)
    (sid url : String)
    (h1 : n.recordingSid = some sid) (h2 : n.recordingUrl = some url)
    (h3 : getRecordingByRecordingSid store sid = none)
    (hfs : 200 ≤ f.status) (hfs2 : f.status < 300)
    (hct : (strIncludes f.contentType "audio" || strIncludes f.contentType "mpeg") = true)
    (hfresh : ∀ x ∈ store, x.id ≠ freshId) :
    (isStemRecording n = false →
      alGet tracker (n.conferenceSid.getD "") = none →
      ∃ e : Recording,
        ingest store tracker n f freshId now = ⟨200, store ++ [e], tracker⟩
        ∧ e.participants = some 0 ∧ e.participantPhoneNumbers = some [])
    ∧ (isStemRecording n = true →
      (alGet tracker (n.conferenceSid.getD "")).bind
        (fun d => alGet d.callSidToPhone (n.callSid.getD "")) = none →
      ∃ e : Recording,
        ingest store tracker n f freshId now = ⟨200, store ++ [e], tracker⟩
        ∧ e.participants = some 1 ∧ e.participantPhoneNumbers = some []) := by
  constructor
  · intro hK hconf
    rw [ingest_mixed_shape store tracker n f freshId now sid url h1 h2 h3 hfs hfs2 hct hK]
    rw [setById_fresh _ _ (fun x hx => hfresh x hx)]
    have htr : (match n.conferenceSid with
        | some c => alDel tracker c
        | none => tracker) = tracker := by
      rcases hcs : n.conferenceSid with _ | c
      · rfl
      · rw [hcs] at hconf
        exact alDel_of_get_none (by simpa using hconf)
    rw [htr, hconf]
    exact ⟨_, rfl, rfl, rfl⟩
  · intro hK hphone
    rw [ingest_stem_shape store tracker n f freshId now sid url h1 h2 h3 hfs hfs2 hct hK]
    rw [setById_fresh _ _ (fun x hx => hfresh x hx)]
    rw [hphone]
    exact ⟨_, rfl, rfl, rfl⟩

/-- C4 witness. -/
theorem ingest_tracker_defaults_witness :
    (∃ e : Recording,
      ingest [] [] exN1 exAudioFetch "id0" 0 = ⟨200, [] ++ [e], []⟩
      ∧ e.participants = some 0 ∧ e.participantPhoneNumbers = some [])
    ∧ (∃ e : Recording,
      ingest [] [] exStemN exAudioFetch "id0" 0 = ⟨200, [] ++ [e], []⟩
      ∧ e.participants = some 1 ∧ e.participantPhoneNumbers = some []) := by
  constructor
  · exact (ingest_tracker_defaults [] [] exN1 exAudioFetch "id0" 0 "RE1" "http://media"
      rfl rfl rfl (by decide) (by decide) (by decide) (by intro x hx; cases hx)).1
      (by decide) rfl
  · exact (ingest_tracker_defaults [] [] exStemN exAudioFetch "id0" 0 "RS1" "u"
      rfl rfl rfl (by decide) (by decide) (by decide) (by intro x hx; cases hx)).2
      (by decide) rfl

/-- C3: a mixed ingest for conference `C` reads `C`'s session for its
metadata and then removes the session from the tracker; a stem ingest
reads the session without removing it; and a stem ingest arriving after
the mixed-triggered removal still succeeds, falling back to default
(count 1, empty phone list) metadata. -/
theorem mixed_consumes_session_stem_survives
    (store : List Recording) (tracker : Tracker) (nm ns : Notification)
    (f1 f2 f3 : FetchResult) (id1 id2 id3 : String) (t1 t2 t3 : Nat)
    (sid1 sid2 url1 url2 C : String) (d : ConfData)
    (hm1 : nm.recordingSid = some sid1) (hm2 : nm.recordingUrl = some url1)
    (hm3 : getRecordingByRecordingSid store sid1 = none)
    (hf1 : fetchOk f1) (hmC : nm.conferenceSid = some C)
    (hmK : isStemRecording nm = false) (hd : alGet tracker C = some d)
    (hfresh1 : ∀ x ∈ store, x.id ≠ id1)
    (hs1 : ns.recordingSid = some sid2) (hs2 : ns.recordingUrl = some url2)
    (hs3 : getRecordingByRecordingSid store sid2 = none)
    (hf2 : fetchOk f2) (hf3 : fetchOk f3)
    (hsC : ns.conferenceSid = some C) (hsK : isStemRecording ns = true)
    (hne : sid2 ≠ sid1) (hne13 : id1 ≠ id3)
    (hfresh2 : ∀ x ∈ store, x.id ≠ id2)
    (hfresh3 : ∀ x ∈ store, x.id ≠ id3) :
    (∃ e1 : Recording,
      ingest store tracker nm f1 id1 t1 = ⟨200, store ++ [e1], alDel tracker C⟩
      ∧ e1.participants = some (d.peak : Int)
      ∧ e1.participantPhoneNumbers = some d.phoneNumbers)
    ∧ alGet (alDel tracker C) C = none
    ∧ (∃ e3 : Recording,
      ingest store tracker ns f2 id2 t2 = ⟨200, store ++ [e3], tracker⟩
      ∧ e3.participants = some 1
      ∧ e3.participantPhoneNumbers = some
          (match alGet d.callSidToPhone (ns.callSid.getD "") with
           | some p => [p]
           | none => []))
    ∧ (∃ e2 : Recording,
      ingest (ingest store tracker nm f1 id1 t1).recs
        (ingest store tracker nm f1 id1 t1).tracker ns f3 id3 t3 =
        ⟨200, (ingest store tracker nm f1 id1 t1).recs ++ [e2],
          (ingest store tracker nm f1 id1 t1).tracker⟩
      ∧ e2.participants = some 1 ∧ e2.participantPhoneNumbers = some []) := by
  obtain ⟨hf1a, hf1b, hf1c⟩ := hf1
  obtain ⟨hf2a, hf2b, hf2c⟩ := hf2
  obtain ⟨hf3a, hf3b, hf3c⟩ := hf3
  have hmix := ingest_mixed_shape store tracker nm f1 id1 t1 sid1 url1 hm1 hm2 hm3
    hf1a hf1b hf1c hmK
  rw [hmC] at hmix
  simp only [Option.getD_some] at hmix
  rw [hd] at hmix
  simp only [Option.map_some', Option.getD_some] at hmix
  rw [setById_fresh _ _ (fun x hx => hfresh1 x hx)] at hmix
  obtain ⟨e1, he1sid, he1id, he1eq, he1p, he1ph⟩ :
      ∃ e1 : Recording, e1.recordingSid = sid1 ∧ e1.id = id1 ∧
        ingest store tracker nm f1 id1 t1 = ⟨200, store ++ [e1], alDel tracker C⟩ ∧
        e1.participants = some (d.peak : Int) ∧
        e1.participantPhoneNumbers = some d.phoneNumbers :=
    ⟨_, rfl, rfl, hmix, rfl, rfl⟩
  refine ⟨⟨e1, he1eq, he1p, he1ph⟩, alGet_alDel_self tracker C, ?_, ?_⟩
  · have hstem := ingest_stem_shape store tracker ns f2 id2 t2 sid2 url2 hs1 hs2 hs3
      hf2a hf2b hf2c hsK
    rw [hsC] at hstem
    simp only [Option.getD_some] at hstem
    rw [hd] at hstem
    simp only [Option.some_bind] at hstem
    rw [setById_fresh _ _ (fun x hx => hfresh2 x hx)] at hstem
    exact ⟨_, hstem, rfl, rfl⟩
  · rw [he1eq]
    dsimp only
    have hs3b : getRecordingByRecordingSid (store ++ [e1]) sid2 = none := by
      rw [getBySid_append_none hs3 e1, if_neg]
      simp only [he1sid, beq_iff_eq]
      exact fun h => hne h.symm
    have hstem2 := ingest_stem_shape (store ++ [e1]) (alDel tracker C) ns f3 id3 t3
      sid2 url2 hs1 hs2 hs3b hf3a hf3b hf3c hsK
    rw [hsC] at hstem2
    simp only [Option.getD_some] at hstem2
    rw [alGet_alDel_self tracker C] at hstem2
    simp only [Option.none_bind] at hstem2
    rw [setById_fresh _ _ ?fr] at hstem2
    case fr =>
      intro x hx
      rcases List.mem_append.mp hx with hxs | hxe
      · exact hfresh3 x hxs
      · rw [List.mem_singleton] at hxe
        rw [hxe, he1id]
        exact hne13
    exact ⟨_, hstem2, rfl, rfl⟩

/-- C3 witness. -/
theorem mixed_consumes_session_stem_survives_witness :
    (∃ e1 : Recording,
      ingest [] exTracker exMixedN exAudioFetch "a" 0 =
        ⟨200, [] ++ [e1], alDel exTracker "CF1"⟩
      ∧ e1.participants = some (exSession.peak : Int)
      ∧ e1.participantPhoneNumbers = some exSession.phoneNumbers)
    ∧ alGet (alDel exTracker "CF1") "CF1" = none
    ∧ (∃ e3 : Recording,
      ingest [] exTracker exStemN exAudioFetch "b" 0 = ⟨200, [] ++ [e3], exTracker⟩
      ∧ e3.participants = some 1
      ∧ e3.participantPhoneNumbers = some
          (match alGet exSession.callSidToPhone (exStemN.callSid.getD "") with
           | some p => [p]
           | none => []))
    ∧ (∃ e2 : Recording,
      ingest (ingest [] exTracker exMixedN exAudioFetch "a" 0).recs
        (ingest [] exTracker exMixedN exAudioFetch "a" 0).tracker
        exStemN exAudioFetch "c" 0 =
        ⟨200, (ingest [] exTracker exMixedN exAudioFetch "a" 0).recs ++ [e2],
          (ingest [] exTracker exMixedN exAudioFetch "a" 0).tracker⟩
      ∧ e2.participants = some 1 ∧ e2.participantPhoneNumbers = some []) :=
  mixed_consumes_session_stem_survives [] exTracker exMixedN exStemN
    exAudioFetch exAudioFetch exAudioFetch "a" "b" "c" 0 0 0
    "RM1" "RS1" "u" "u" "CF1" exSession
    rfl rfl rfl ⟨by decide, by decide, by decide⟩ rfl (by decide) (by decide)
    (by intro x hx; cases hx)
    rfl rfl rfl ⟨by decide, by decide, by decide⟩ ⟨by decide, by decide, by decide⟩
    rfl (by decide) (by decide) (by decide)
    (by intro x hx; cases hx) (by intro x hx; cases hx)

/-- C6 counterexample: a fetch answering HTTP 200 with declared content
type `video/mpeg` — not an audio type — is accepted, the ingest reports
success and persists an entity, because the handler also accepts any
content type containing `mpeg`. -/
theorem nonaudio_mpeg_accepted :
    specIsAudioContentType "video/mpeg" = false
    ∧ (ingest [] [] exN1 exVideoFetch "id0" 0).httpStatus = 200
    ∧ (ingest [] [] exN1 exVideoFetch "id0" 0).recs ≠ [] := by
  decide

/-- C6 (amended): an ingest whose media fetch returns a 200-range status
with a declared content type containing neither `audio` nor `mpeg` (for
example `text/html`) is aborted as a fetch failure — HTTP 500 to the
caller — and neither the persisted recordings nor the tracker change;
a non-audio type containing `mpeg` (such as `video/mpeg`) is accepted. -/
theorem ingest_nonaudio_rejected (store : List Recording) (tracker : Tracker)
    (n : Notification) (f : FetchResult) (freshId : String) (now : Nat)
    (sid url : String)
    (h1 : n.recordingSid = some sid) (h2 : n.recordingUrl = some url)
    (h3 : getRecordingByRecordingSid store sid = none)
    (hfs : 200 ≤ f.status) (hfs2 : f.status < 300)
    (hA : strIncludes f.contentType "audio" = false)
    (hM : strIncludes f.contentType "mpeg" = false) :
    ingest store tracker n f freshId now = ⟨500, store, tracker⟩ :=
  ingest_nonaudio_shape store tracker n f freshId now sid url h1 h2 h3 hfs hfs2 hA hM

/-- C6 amended-theorem witness. -/
theorem ingest_nonaudio_rejected_witness :
    ingest [] [] exN1 exHtmlFetch "id0" 0 = ⟨500, [], []⟩ :=
  ingest_nonaudio_rejected [] [] exN1 exHtmlFetch "id0" 0 "RE1" "http://media"
    rfl rfl rfl (by decide) (by decide) (by decide) (by decide)

/-- C5 counterexample: an outbound-track recording not sourced from the
dial verb is a per-leg capture by the claim's wording, yet the code
classifies it as mixed. -/
theorem outbound_track_not_stem :
    specPerLegCapture exOutboundN = true ∧ isStemRecording exOutboundN = false := by
  decide

/-- C5 (amended): the classification is the single explicit predicate
"`RecordingSource` is `DialVerb`, or `RecordingTrack` is `inbound`" over
the notification's fields; every other notification — including an
outbound-track recording not sourced from the dial verb — is mixed. -/
theorem isStemRecording_characterization (n : Notification) :
    isStemRecording n = true ↔
      n.recordingSource = some "DialVerb" ∨ n.recordingTrack = some "inbound" := by
  unfold isStemRecording
  rw [Bool.or_eq_true, beq_iff_eq, beq_iff_eq]

lemma pairwise_getAllRecordings (store : List Recording) (inc : Bool) :
    List.Pairwise (fun a b : Recording => b.createdAt ≤ a.createdAt)
      (getAllRecordings store inc) := by
  unfold getAllRecordings
  have hs := @List.sorted_mergeSort Recording
    (fun a b : Recording => decide (b.createdAt ≤ a.createdAt))
    (by
      intro a b c hab hbc
      simp only [decide_eq_true_eq] at hab hbc ⊢
      omega)
    (by
      intro a b
      simp only [Bool.or_eq_true, decide_eq_true_eq]
      omega)
    (store.filter (fun r => inc || r.archived == 0))
  exact hs.imp (by intro a b h; simpa using h)

/-- C10: listing recordings with `includeArchived = false` returns
exactly the stored recordings whose `archived` flag is 0 (as a
permutation of that filter), ordered by `createdAt` descending; with
`includeArchived = true` it returns all stored recordings in the same
order. -/
theorem getAllRecordings_spec (store : List Recording) :
    ((getAllRecordings store false).Perm
        (store.filter (fun r => r.archived == 0))
      ∧ List.Pairwise (fun a b : Recording => b.createdAt ≤ a.createdAt)
          (getAllRecordings store false))
    ∧ ((getAllRecordings store true).Perm store
      ∧ List.Pairwise (fun a b : Recording => b.createdAt ≤ a.createdAt)
          (getAllRecordings store true)) := by
  refine ⟨⟨?_, pairwise_getAllRecordings store false⟩,
          ⟨?_, pairwise_getAllRecordings store true⟩⟩
  · unfold getAllRecordings
    simp only [Bool.false_or]
    exact List.mergeSort_perm _ _
  · unfold getAllRecordings
    simp only [Bool.true_or, List.filter_true]
    exact List.mergeSort_perm _ _
